import Mathlib

/-!
# Verification of the web-scraper crawl orchestration and resumable-state engine

Shallow embedding of the crawl orchestrator (`webscraper/core/scraper.py`,
`Scraper.run`), the checkpoint store (`webscraper/utils/state.py`,
`StateManager` / `ScrapeState`), the CLI resume command (`webscraper/cli.py`),
the concurrency configuration bound (`webscraper/core/config.py`), and the
legacy synchronous fetch-with-retry loop (`src/scraper.py`,
`WebScraper.fetch_page`).

Modelling conventions:
* The checkpoint directory is an association list `Store` from `job_id` to the
  persisted record; a record is either a parseable `ScrapeState` or corrupt.
* Timestamps are opaque strings threaded as a `now` argument.
* Python's in-place mutation plus `save_state` becomes returning the new state
  together with the new store.
* The `while current_url and pages_scraped < max_pages` loop of `Scraper.run`
  is a structurally recursive function on a fuel argument; the orchestrator
  invokes it with fuel `max_pages - pages_scraped`, which is exact: every
  iteration of the Python loop increments `pages_scraped` by one, so the loop
  condition `pages_scraped < max_pages` fails at the same point the fuel runs
  out, and the `current_url` test is checked before consuming fuel.
* `hashlib.md5(config_str.encode()).hexdigest()[:12]` in `_generate_job_id` is
  abstracted as an arbitrary function `hash : String → String` applied to the
  exact `config_str` built by the source; every theorem holds for all `hash`.
-/

/-- The durable progress record of one crawl job
(`webscraper/utils/state.py`, dataclass `ScrapeState`). -/
structure ScrapeState where
  job_id : String
  base_url : String
  started_at : String
  last_updated : String
  pages_scraped : Nat
  items_collected : Nat
  current_url : Option String
  completed : Bool
  urls_scraped : List String
deriving DecidableEq

/-- What a checkpoint file on disk holds for one job: a record the JSON loader
can parse back into a `ScrapeState`, or an unparseable (corrupt) blob
(the `json.JSONDecodeError` / `TypeError` cases of `load_state`). -/
inductive Persisted where
  | good : ScrapeState → Persisted
  | corrupt : Persisted
deriving DecidableEq

/-- The checkpoint directory: one entry per `job_id` (one `<job_id>.json`
file each). -/
abbrev Store := List (String × Persisted)

/-- Parsing a persisted record (`ScrapeState(**data)` after `json.load`,
with the `except (json.JSONDecodeError, TypeError)` handler). -/
def parsePersisted : Persisted → Option ScrapeState
  | .good s => some s
  | .corrupt => none

namespace StateManager

/-- Overwrite the single checkpoint file for `jid`
(`open(state_path, 'w')` replaces the file's content). -/
def storePut (store : Store) (jid : String) (r : Persisted) : Store :=
  (jid, r) :: store.filter (fun p => !(p.1 == jid))

/-- `StateManager.save_state`: rewrite `last_updated`, then dump the record
over the job's checkpoint file. Returns the written state and the new store. -/
def save_state (store : Store) (state : ScrapeState) (now : String) :
    ScrapeState × Store :=
  let s := { state with last_updated := now }
  (s, storePut store state.job_id (.good s))

/-- `StateManager.load_state`: absent file gives `None`; an unparseable file
is caught and also gives `None` (with a logged warning). -/
def load_state (store : Store) (job_id : String) : Option ScrapeState :=
  match store.lookup job_id with
  | none => none
  | some r => parsePersisted r

/-- `StateManager.create_job`: a fresh zero-progress state, saved at once. -/
def create_job (store : Store) (job_id base_url : String) (now : String) :
    ScrapeState × Store :=
  save_state store
    { job_id := job_id, base_url := base_url, started_at := now,
      last_updated := now, pages_scraped := 0, items_collected := 0,
      current_url := some base_url, completed := false, urls_scraped := [] }
    now

/-- `StateManager.update_progress`: increment `pages_scraped`, add the item
count, append the scraped URL to the history, set `current_url` to the URL
just scraped (note: the source sets `state.current_url = url`, not the next
URL), and save. -/
def update_progress (store : Store) (state : ScrapeState) (url : String)
    (items_count : Nat) (now : String) : ScrapeState × Store :=
  save_state store
    { state with
      pages_scraped := state.pages_scraped + 1,
      items_collected := state.items_collected + items_count,
      urls_scraped := state.urls_scraped ++ [url],
      current_url := some url }
    now

/-- `StateManager.mark_completed`: set the terminal flag, clear the cursor,
save. -/
def mark_completed (store : Store) (state : ScrapeState) (now : String) :
    ScrapeState × Store :=
  save_state store { state with completed := true, current_url := none } now

/-- `StateManager.list_jobs`: glob every checkpoint file and `load_state`
each; unparseable entries load as `None` and are skipped. -/
def list_jobs (store : Store) : List ScrapeState :=
  store.filterMap (fun p => load_state store p.1)

/-- `StateManager.get_resumable_url`. -/
def get_resumable_url (state : ScrapeState) : Option String :=
  if state.completed then none else state.current_url

end StateManager

/-- One page of a content fixture: the records the extractor yields for it and
the next-page URL the parser discovers on it. -/
structure Page where
  records : List String
  next_url : Option String
deriving DecidableEq

/-- Modelled from the spec: `webscraper/utils/retry.py` (`async_retry`, the
decorator on `Scraper._fetch_page`) is not under `src/`. Per the spec's retry
policy (section 4.2 read with section 4.1), exhausting the retry budget for a
page surfaces to the orchestrator as a fetch that yields no content, which
`Scraper._scrape_page` maps to no items and no next URL (`if not html:
return [], None`). The `fetch` argument is therefore the retry-wrapped
per-URL fetch outcome: `some page` on success, `none` on retry exhaustion.
The rest of this definition is `Scraper._scrape_page` from the source. -/
def scrape_page (fetch : String → Option Page) (url : String) :
    List String × Option String :=
  match fetch url with
  | none => ([], none)
  | some pg => (pg.records, pg.next_url)

/-- `Scraper._generate_job_id`: `config_str` is built exactly as in the
source; the md5-hexdigest-truncation is the abstract `hash`. -/
def generate_job_id (hash : String → String) (base_url item_container : String) :
    String :=
  hash (base_url ++ ":" ++ item_container)

/-- The slice of `ScraperConfig` the orchestrator run consumes. -/
structure RunCfg where
  base_url : String
  item_container : String
  max_pages : Nat
  concurrency : Int
  resume_enabled : Bool

/-- Observable outcome of the main `while` loop of `Scraper.run`:
final in-memory state, final store, the local `pages_scraped` counter, the
accumulated records (`all_data`), the URLs actually fetched (in order), the
store snapshot after each `update_progress` write, and the number of loop
iterations executed. -/
structure LoopResult where
  state : Option ScrapeState
  store : Store
  pages_scraped : Nat
  all_data : List String
  fetched : List String
  writes : List Store
  iters : Nat
deriving DecidableEq

/-- The main loop of `Scraper.run` (scraper.py lines 193-211):
`while current_url and pages_scraped < max_pages`, with the skip branch for
URLs already in `urls_scraped`, the fetch-transform step, and the
`update_progress` checkpoint write. The fuel is exact when instantiated with
`max_pages - pages_scraped` (see the header). -/
def runLoop (fetch : String → Option Page) (now : String) (max_pages : Nat)
    (fuel : Nat) (state : Option ScrapeState) (store : Store)
    (cur : Option String) (pages : Nat) (data fetched : List String)
    (writes : List Store) (iters : Nat) : LoopResult :=
  match cur with
  | none => ⟨state, store, pages, data, fetched, writes, iters⟩
  | some url =>
    match fuel with
    | 0 => ⟨state, store, pages, data, fetched, writes, iters⟩
    | fuel' + 1 =>
      if pages < max_pages then
        match state with
        | some s =>
          if url ∈ s.urls_scraped then
            runLoop fetch now max_pages fuel' (some s) store (some url)
              (pages + 1) data fetched writes (iters + 1)
          else
            let pr := scrape_page fetch url
            let up := StateManager.update_progress store s url pr.1.length now
            runLoop fetch now max_pages fuel' (some up.1) up.2 pr.2
              (pages + 1) (data ++ pr.1) (fetched ++ [url])
              (writes ++ [up.2]) (iters + 1)
        | none =>
          let pr := scrape_page fetch url
          runLoop fetch now max_pages fuel' none store pr.2
            (pages + 1) (data ++ pr.1) (fetched ++ [url]) writes (iters + 1)
      else ⟨state, store, pages, data, fetched, writes, iters⟩

namespace Scraper

/-- The resume branch of `Scraper.run` (lines 166-175): with an explicit
resume id and an enabled state manager, load the state; a missing state or a
completed one makes the branch fall through (`state = None`) after printing
an error. -/
def loadResume (resume_enabled : Bool) (store : Store)
    (resume_job_id : Option String) : Option ScrapeState :=
  match resume_job_id with
  | none => none
  | some jid =>
    if resume_enabled then
      match StateManager.load_state store jid with
      | none => none
      | some s => if s.completed then none else some s
    else none

/-- The cursor, counter, state and store the loop starts from. -/
structure InitResult where
  state : Option ScrapeState
  store : Store
  current_url : Option String
  pages_scraped : Nat

/-- Start-up of `Scraper.run` (lines 166-184): resume if the loaded state is
usable, otherwise create a fresh job under the deterministic job id
(`create_job` saves a zero-progress state immediately). -/
def initRun (hash : String → String) (cfg : RunCfg) (now : String)
    (store : Store) (resume_job_id : Option String) : InitResult :=
  match loadResume cfg.resume_enabled store resume_job_id with
  | some s => ⟨some s, store, StateManager.get_resumable_url s, s.pages_scraped⟩
  | none =>
    let jid := generate_job_id hash cfg.base_url cfg.item_container
    if cfg.resume_enabled then
      let cj := StateManager.create_job store jid cfg.base_url now
      ⟨some cj.1, cj.2, some cfg.base_url, 0⟩
    else
      ⟨none, store, some cfg.base_url, 0⟩

/-- Observable outcome of one `Scraper.run` invocation. `exported` records
whether the export sink is invoked (`if all_data:`); `semaphore` is the
capacity `asyncio.Semaphore(self.config.concurrency)` is built with
(line 158); `init_state` / `start_url` / `start_pages` are the state, cursor
and counter the loop starts from. -/
structure RunResult where
  init_state : Option ScrapeState
  start_url : Option String
  start_pages : Nat
  state : Option ScrapeState
  store : Store
  pages_scraped : Nat
  all_data : List String
  fetched : List String
  writes : List Store
  iters : Nat
  exported : Bool
  semaphore : Int
deriving DecidableEq

/-- The loop exit of `Scraper.run` (lines 213-215): `mark_completed` on the
state, when there is one. -/
def finalize (r : LoopResult) (now : String) : Option ScrapeState × Store :=
  match r.state with
  | some s =>
    let mc := StateManager.mark_completed r.store s now
    (some mc.1, mc.2)
  | none => (none, r.store)

/-- `Scraper.run` (scraper.py lines 148-228): start-up, main loop,
`mark_completed`, export of the accumulated records when non-empty. -/
def run (hash : String → String) (fetch : String → Option Page) (cfg : RunCfg)
    (now : String) (store : Store) (resume_job_id : Option String) :
    RunResult :=
  let i := initRun hash cfg now store resume_job_id
  let r := runLoop fetch now cfg.max_pages (cfg.max_pages - i.pages_scraped)
    i.state i.store i.current_url i.pages_scraped [] [] [] 0
  let fin := finalize r now
  { init_state := i.state, start_url := i.current_url,
    start_pages := i.pages_scraped, state := fin.1, store := fin.2,
    pages_scraped := r.pages_scraped, all_data := r.all_data,
    fetched := r.fetched, writes := r.writes, iters := r.iters,
    exported := !r.all_data.isEmpty, semaphore := cfg.concurrency }

end Scraper

/-- Outcome of the `webscraper resume` CLI command: the two pre-checks exit
with status 1 before the scraper is ever constructed, else the scraper run
happens. -/
inductive CliResult where
  | jobNotFound : CliResult
  | alreadyCompleted : CliResult
  | ran : Scraper.RunResult → CliResult

/-- The `resume` command of `webscraper/cli.py` (lines 140-163): load the
state; exit on a missing job, exit on a completed job, otherwise invoke
`Scraper.run` with the explicit resume id. -/
def cli_resume (hash : String → String) (fetch : String → Option Page)
    (cfg : RunCfg) (now : String) (store : Store) (job_id : String) :
    CliResult :=
  match StateManager.load_state store job_id with
  | none => CliResult.jobNotFound
  | some s =>
    if s.completed then CliResult.alreadyCompleted
    else CliResult.ran (Scraper.run hash fetch cfg now store (some job_id))

namespace ScraperConfig

/-- The pydantic field constraint `concurrency: int = Field(default=5, ge=1,
le=20)` (`webscraper/core/config.py` line 67), as enforced when a
`ScraperConfig` is constructed (e.g. from YAML). -/
def validate_concurrency (c : Int) : Except String Int :=
  if c < 1 then Except.error "Input should be greater than or equal to 1"
  else if 20 < c then Except.error "Input should be less than or equal to 20"
  else Except.ok c

end ScraperConfig

/-- The CLI override `if concurrency: config.concurrency = concurrency`
(`webscraper/cli.py` lines 48-49): a plain attribute assignment on an already
constructed pydantic model. The model does not set `validate_assignment`, so
the `ge=1, le=20` constraint is not re-checked here; only Python's truthiness
test guards the override (`0` and `None` leave the config value in place). -/
def cli_override_concurrency (cfg_concurrency : Int) (cli_value : Option Int) :
    Int :=
  match cli_value with
  | none => cfg_concurrency
  | some v => if v = 0 then cfg_concurrency else v

/-- Result of one fetch attempt by a backend, as the legacy retry loop
distinguishes them: content, a `requests.RequestException` (retryable), or
any other exception (not caught by the loop). -/
inductive FetchResult where
  | ok : String → FetchResult
  | retryable : FetchResult
  | fatal : FetchResult

/-- The body of `WebScraper.fetch_page`'s `for attempt in range(retries)`
loop (`src/scraper.py` lines 24-37). `backend n` is the outcome of the
`n`-th attempt (0-indexed); `remaining` counts the attempts left in the
range, `count` the backend invocations made so far. `Except.error ()` models
an uncaught (non-`RequestException`) exception propagating; `Except.ok none`
is the `return None` after exhaustion. -/
def fetch_page_go (backend : Nat → FetchResult) (retries : Nat) :
    Nat → Nat → Nat → Except Unit (Option String) × Nat
  | 0, _attempt, count => (Except.ok none, count)
  | remaining + 1, attempt, count =>
    match backend attempt with
    | .ok html => (Except.ok (some html), count + 1)
    | .retryable =>
      if attempt == retries - 1 then (Except.ok none, count + 1)
      else fetch_page_go backend retries remaining (attempt + 1) (count + 1)
    | .fatal => (Except.error (), count + 1)

namespace WebScraper

/-- `WebScraper.fetch_page` (`src/scraper.py` lines 20-37): up to `retries`
attempts, returning the page text on success, `None` after exhausting all
attempts on retryable failures, and letting any other exception propagate.
The second component is how many times the backend was invoked. -/
def fetch_page (backend : Nat → FetchResult) (retries : Nat) :
    Except Unit (Option String) × Nat :=
  fetch_page_go backend retries retries 0 0

end WebScraper

/-! ## Concrete content fixtures -/

/-- A two-page fixture: page `p1` yields records `a`, `b` and links to `p2`;
page `p2` yields `c` and has no next link. -/
def siteTwoPages : List (String × Page) :=
  [("p1", { records := ["a", "b"], next_url := some "p2" }),
   ("p2", { records := ["c"], next_url := none })]

/-- Retry-wrapped fetch over `siteTwoPages`. -/
def fetchTwoPages : String → Option Page := fun u => siteTwoPages.lookup u

/-- A configuration for the two-page fixture: budget 5, resume enabled. -/
def cfgTwoPages : RunCfg :=
  { base_url := "p1", item_container := "sel", max_pages := 5,
    concurrency := 1, resume_enabled := true }

/-- The uncrashed single-pass run over the two-page fixture. -/
def fullRun : Scraper.RunResult :=
  Scraper.run id fetchTwoPages cfgTwoPages "t" [] none

/-- The store as persisted immediately after page 1's `update_progress`
write: the first checkpoint write of the uncrashed run, i.e. the durable
state a crash at that point leaves behind. -/
def crashStore : Store := fullRun.writes.headD []

/-- Resuming the crashed job (explicit resume id, the deterministic id of
`cfgTwoPages`) from the post-page-1 checkpoint. -/
def resumedRun : Scraper.RunResult :=
  Scraper.run id fetchTwoPages cfgTwoPages "t" crashStore (some "p1:sel")

/-- A self-loop fixture: page `p1` links back to itself. -/
def siteLoop : List (String × Page) :=
  [("p1", { records := ["a"], next_url := some "p1" })]

/-- Retry-wrapped fetch over `siteLoop`. -/
def fetchLoop : String → Option Page := fun u => siteLoop.lookup u

/-- A configuration with checkpointing disabled (`resume.enabled: false`)
and budget 2, for the self-loop fixture. -/
def cfgLoop : RunCfg :=
  { base_url := "p1", item_container := "sel", max_pages := 2,
    concurrency := 1, resume_enabled := false }

/-- A fixture where page `p1` links to `p2` but every fetch of `p2` fails
(retry budget exhausted, so the wrapped fetch yields nothing). -/
def siteBroken : List (String × Page) :=
  [("p1", { records := ["a", "b"], next_url := some "p2" })]

/-- Retry-wrapped fetch over `siteBroken`. -/
def fetchBroken : String → Option Page := fun u => siteBroken.lookup u

/-- A previously persisted incomplete state for the deterministic job id of
`cfgTwoPages`, with two pages of prior progress. -/
def priorState : ScrapeState :=
  { job_id := "p1:sel", base_url := "p1", started_at := "t0",
    last_updated := "t0", pages_scraped := 2, items_collected := 7,
    current_url := some "b", completed := false, urls_scraped := ["a", "b"] }

/-- A store already holding `priorState` under the deterministic job id. -/
def storeWithProgress : Store := [("p1:sel", Persisted.good priorState)]

/-! ## Claim theorems: concrete violations -/

/-- C1. The idempotent-resume property fails on the code: over the two-page
fixture the uncrashed single-pass run exports the records `a`, `b`, `c`, but
resuming the same configuration from the checkpoint written after page 1
collects nothing and never invokes the export sink — `update_progress`
persisted `current_url` as the already-scraped page-1 URL, so the resumed
loop only takes the skip branch until the page budget is exhausted, and the
pre-crash records are not reloaded into the accumulator. -/
theorem idempotent_resume_violation :
    fullRun.all_data = ["a", "b", "c"] ∧ fullRun.exported = true ∧
    resumedRun.all_data = [] ∧ resumedRun.exported = false ∧
    resumedRun.all_data ≠ fullRun.all_data := by
  decide

/-- C2. The persisted cursor after page 1 of the two-page fixture is the
URL of page 1 itself (`update_progress` sets `state.current_url = url`), not
the discovered next-page URL `p2`; consequently the resumed run fetches no
page at all — in particular it never continues at page 2. -/
theorem checkpoint_cursor_violation :
    (StateManager.load_state crashStore "p1:sel").map ScrapeState.current_url
      = some (some "p1") ∧
    (StateManager.load_state crashStore "p1:sel").map ScrapeState.current_url
      ≠ some (some "p2") ∧
    resumedRun.fetched = [] := by
  decide

/-- C3 counterexample. With an incomplete state of two pages of prior
progress already persisted under the deterministic job id, invoking the run
without a resume identifier does not resume it: the loop starts from a fresh
zero-progress `CrawlState`, and the final persisted history is that of the
fresh crawl — the prior progress (`a`, `b`) is discarded. -/
theorem implicit_resume_counterexample :
    (Scraper.run id fetchTwoPages cfgTwoPages "t" storeWithProgress
        none).init_state
      = some { job_id := "p1:sel", base_url := "p1", started_at := "t",
               last_updated := "t", pages_scraped := 0, items_collected := 0,
               current_url := some "p1", completed := false,
               urls_scraped := [] } ∧
    (Scraper.run id fetchTwoPages cfgTwoPages "t" storeWithProgress
        none).state.map ScrapeState.urls_scraped
      = some ["p1", "p2"] := by
  decide

/-- C5 counterexample. With checkpointing disabled (`resume.enabled: false`,
so the loop runs with no state and the membership guard is skipped), a
pagination self-loop makes the orchestrator re-fetch the already-visited URL
on every iteration: the claim's "a cycle causes the already-visited URL to be
skipped without re-fetching" does not hold for every configuration. The
budget still bounds the loop (two iterations for `max_pages = 2`). -/
theorem cycle_refetch_counterexample :
    (Scraper.run id fetchLoop cfgLoop "t" [] none).fetched = ["p1", "p1"] ∧
    ¬ (Scraper.run id fetchLoop cfgLoop "t" [] none).fetched.Nodup := by
  decide

/-- C6 counterexample. `Scraper.run` invoked with an explicit resume
identifier for which no state exists does not fail: it logs an error, falls
through to creating a fresh job, and proceeds to fetch both fixture pages
under that new job — contradicting "in neither failure case does the run
proceed to fetch pages under a new job". -/
theorem resume_fallback_counterexample :
    (Scraper.run id fetchTwoPages cfgTwoPages "t" [] (some "nojob")).fetched
      = ["p1", "p2"] ∧
    (Scraper.run id fetchTwoPages cfgTwoPages "t" [] (some "nojob")).init_state
      = some { job_id := "p1:sel", base_url := "p1", started_at := "t",
               last_updated := "t", pages_scraped := 0, items_collected := 0,
               current_url := some "p1", completed := false,
               urls_scraped := [] } := by
  decide

/-- C7 counterexample. When the fetch of page 2 exhausts its retries, the
records of page 1 are still exported and the loop terminates, but the failed
page is not skipped from the persisted counters: `update_progress` runs for
it, so the final state counts page 2 as scraped (`pages_scraped = 2`, URL
`p2` in the history) — contradicting "that page is skipped (not counted as
scraped)". -/
theorem fetch_failure_counted_counterexample :
    (Scraper.run id fetchBroken cfgTwoPages "t" [] none).all_data
      = ["a", "b"] ∧
    (Scraper.run id fetchBroken cfgTwoPages "t" [] none).exported = true ∧
    (Scraper.run id fetchBroken cfgTwoPages "t" [] none).state.map
        (fun s => (s.pages_scraped, s.urls_scraped))
      = some (2, ["p1", "p2"]) := by
  decide

/-- C10. Construction-time validation rejects an out-of-range concurrency
(and accepts an in-range one without clamping), but the CLI override path
assigns the raw value without re-validation — pydantic's
`validate_assignment` is not enabled — so `--concurrency 21` flows through:
the run proceeds, fetches pages, and builds its semaphore with capacity 21
instead of failing with a configuration error before any fetch. -/
theorem concurrency_cli_override_gap :
    ScraperConfig.validate_concurrency 21
      = Except.error "Input should be less than or equal to 20" ∧
    ScraperConfig.validate_concurrency 5 = Except.ok 5 ∧
    cli_override_concurrency 5 (some 21) = 21 ∧
    (Scraper.run id fetchTwoPages { cfgTwoPages with concurrency := 21 } "t"
        [] none).semaphore = 21 ∧
    (Scraper.run id fetchTwoPages { cfgTwoPages with concurrency := 21 } "t"
        [] none).fetched = ["p1", "p2"] :=
  ⟨rfl, rfl, rfl, rfl, rfl⟩

/-! ## Step characterizations of the main loop -/

/-- The loop exits as soon as the cursor is empty. -/
theorem runLoop_none (fetch : String → Option Page) (now : String)
    (max_pages fuel : Nat) (state : Option ScrapeState) (store : Store)
    (pages : Nat) (data fetched : List String) (writes : List Store)
    (iters : Nat) :
    runLoop fetch now max_pages fuel state store none pages data fetched
        writes iters
      = ⟨state, store, pages, data, fetched, writes, iters⟩ := by
  cases fuel <;> rfl

/-- Exhausted fuel (the exact remaining page budget) exits the loop. -/
theorem runLoop_zero (fetch : String → Option Page) (now : String)
    (max_pages : Nat) (state : Option ScrapeState) (store : Store)
    (url : String) (pages : Nat) (data fetched : List String)
    (writes : List Store) (iters : Nat) :
    runLoop fetch now max_pages 0 state store (some url) pages data fetched
        writes iters
      = ⟨state, store, pages, data, fetched, writes, iters⟩ := rfl

/-- A spent page budget exits the loop. -/
theorem runLoop_budget (fetch : String → Option Page) (now : String)
    (max_pages fuel : Nat) (state : Option ScrapeState) (store : Store)
    (url : String) (pages : Nat) (data fetched : List String)
    (writes : List Store) (iters : Nat) (hp : ¬ pages < max_pages) :
    runLoop fetch now max_pages (fuel + 1) state store (some url) pages data
        fetched writes iters
      = ⟨state, store, pages, data, fetched, writes, iters⟩ := by
  cases state <;> simp [runLoop, hp]

/-- The skip branch: an already-scraped URL advances the counter without
fetching, without touching the state, and without moving the cursor. -/
theorem runLoop_skip (fetch : String → Option Page) (now : String)
    (max_pages fuel : Nat) (s : ScrapeState) (store : Store) (url : String)
    (pages : Nat) (data fetched : List String) (writes : List Store)
    (iters : Nat) (hp : pages < max_pages) (hmem : url ∈ s.urls_scraped) :
    runLoop fetch now max_pages (fuel + 1) (some s) store (some url) pages
        data fetched writes iters
      = runLoop fetch now max_pages fuel (some s) store (some url)
          (pages + 1) data fetched writes (iters + 1) := by
  simp [runLoop, hp, hmem]

/-- The scrape branch: fetch, extract, checkpoint, advance. -/
theorem runLoop_scrape (fetch : String → Option Page) (now : String)
    (max_pages fuel : Nat) (s : ScrapeState) (store : Store) (url : String)
    (pages : Nat) (data fetched : List String) (writes : List Store)
    (iters : Nat) (hp : pages < max_pages) (hmem : url ∉ s.urls_scraped) :
    runLoop fetch now max_pages (fuel + 1) (some s) store (some url) pages
        data fetched writes iters
      = runLoop fetch now max_pages fuel
          (some (StateManager.update_progress store s url
            (scrape_page fetch url).1.length now).1)
          (StateManager.update_progress store s url
            (scrape_page fetch url).1.length now).2
          (scrape_page fetch url).2 (pages + 1)
          (data ++ (scrape_page fetch url).1) (fetched ++ [url])
          (writes ++ [(StateManager.update_progress store s url
            (scrape_page fetch url).1.length now).2]) (iters + 1) := by
  simp [runLoop, hp, hmem]

/-- The stateless branch (checkpointing disabled): fetch and advance with no
membership guard and no checkpoint write. -/
theorem runLoop_nostate (fetch : String → Option Page) (now : String)
    (max_pages fuel : Nat) (store : Store) (url : String) (pages : Nat)
    (data fetched : List String) (writes : List Store) (iters : Nat)
    (hp : pages < max_pages) :
    runLoop fetch now max_pages (fuel + 1) none store (some url) pages data
        fetched writes iters
      = runLoop fetch now max_pages fuel none store (scrape_page fetch url).2
          (pages + 1) (data ++ (scrape_page fetch url).1) (fetched ++ [url])
          writes (iters + 1) := by
  simp [runLoop, hp]

/-! ## Retry bound (legacy fetch loop) -/

/-- Under a backend whose every attempt fails retryably, the remaining
`range` iterations all consume one invocation each and end in the
exhaustion `return None`. -/
theorem fetch_page_go_retryable (backend : Nat → FetchResult) (retries : Nat)
    (h : ∀ n, backend n = FetchResult.retryable) :
    ∀ remaining attempt count, remaining + attempt = retries →
      fetch_page_go backend retries remaining attempt count
        = (Except.ok none, count + remaining) := by
  intro remaining
  induction remaining with
  | zero => intro attempt count _; rfl
  | succ r ih =>
    intro attempt count hsum
    rw [fetch_page_go, h attempt]
    rcases Nat.eq_zero_or_pos r with hr | hr
    · subst hr
      have hlast : (attempt == retries - 1) = true :=
        beq_iff_eq.mpr (by omega)
      simp [hlast]
    · have hlast : (attempt == retries - 1) = false :=
        beq_eq_false_iff_ne.mpr (by omega)
      rw [hlast]
      show fetch_page_go backend retries r (attempt + 1) (count + 1)
        = (Except.ok none, count + (r + 1))
      rw [ih (attempt + 1) (count + 1) (by omega)]
      congr 1
      omega

/-- C8. Bounded retry in `WebScraper.fetch_page`: with `max_retries = k`
(`k ≥ 1`), a backend failing retryably on every attempt is invoked exactly
`k` times and the page is abandoned (`None` is returned, no exception); a
backend whose first attempt raises a non-retryable failure propagates it
immediately after exactly one invocation. -/
theorem retry_exhaustion_bounded (backend : Nat → FetchResult) (k : Nat)
    (hk : 1 ≤ k) :
    ((∀ n, backend n = FetchResult.retryable) →
      WebScraper.fetch_page backend k = (Except.ok none, k)) ∧
    (backend 0 = FetchResult.fatal →
      WebScraper.fetch_page backend k = (Except.error (), 1)) := by
  constructor
  · intro h
    have hgo := fetch_page_go_retryable backend k h k 0 0 (by omega)
    rw [WebScraper.fetch_page, hgo]
    simp
  · intro h
    obtain ⟨j, rfl⟩ : ∃ j, k = j + 1 := ⟨k - 1, by omega⟩
    rw [WebScraper.fetch_page, fetch_page_go, h]

/-- Witness for C8 at the source's own `max_retries = 3`: exhaustion takes
exactly 3 invocations; a fatal first attempt takes exactly 1. -/
theorem retry_exhaustion_bounded_witness :
    WebScraper.fetch_page (fun _ => FetchResult.retryable) 3
      = (Except.ok none, 3) ∧
    WebScraper.fetch_page (fun _ => FetchResult.fatal) 3
      = (Except.error (), 1) :=
  ⟨(retry_exhaustion_bounded (fun _ => FetchResult.retryable) 3
      (by decide)).1 (fun _ => rfl),
   (retry_exhaustion_bounded (fun _ => FetchResult.fatal) 3
      (by decide)).2 rfl⟩

/-! ## Checkpoint-store degradation -/

/-- A successful lookup pinpoints a store entry. -/
theorem storeLookup_mem (store : Store) (jid : String) (r : Persisted)
    (h : store.lookup jid = some r) : (jid, r) ∈ store := by
  induction store with
  | nil => simp [List.lookup] at h
  | cons q rest ih =>
    obtain ⟨k, v⟩ := q
    by_cases hk : (jid == k) = true
    · rw [List.lookup, hk] at h
      have hkj : jid = k := beq_iff_eq.mp hk
      have hv : v = r := by injection h
      rw [hkj, ← hv]
      exact List.mem_cons_self _ _
    · rw [List.lookup, Bool.eq_false_iff.mpr hk] at h
      exact List.mem_cons_of_mem _ (ih h)

/-- With distinct job ids (one checkpoint file per job), looking up a
member entry's id returns exactly that entry's record. -/
theorem storeLookup_of_mem_nodup (store : Store)
    (hnd : (store.map Prod.fst).Nodup) (p : String × Persisted)
    (hp : p ∈ store) : store.lookup p.1 = some p.2 := by
  induction store with
  | nil => cases hp
  | cons q rest ih =>
    obtain ⟨k, v⟩ := q
    rw [List.map_cons, List.nodup_cons] at hnd
    rcases List.mem_cons.mp hp with h1 | h2
    · rw [h1]
      simp [List.lookup]
    · have hne : (p.1 == k) = false := by
        refine beq_eq_false_iff_ne.mpr (fun he => hnd.1 ?_)
        have hmm := List.mem_map_of_mem Prod.fst h2
        rw [he] at hmm
        exact hmm
      rw [List.lookup, hne]
      exact ih hnd.2 h2

/-- Pointwise-equal selector functions give equal `filterMap`s. -/
theorem filterMap_ext_mem {α β : Type} (l : List α) (f g : α → Option β)
    (h : ∀ a ∈ l, f a = g a) : l.filterMap f = l.filterMap g := by
  induction l with
  | nil => rfl
  | cons a t ih =>
    rw [List.filterMap_cons, List.filterMap_cons, h a (List.mem_cons_self a t),
      ih (fun b hb => h b (List.mem_cons_of_mem a hb))]

/-- With distinct job ids, `list_jobs` is exactly the parseable entries in
store order, the corrupt ones skipped. -/
theorem list_jobs_eq (store : Store) (hnd : (store.map Prod.fst).Nodup) :
    StateManager.list_jobs store
      = store.filterMap (fun p => parsePersisted p.2) := by
  unfold StateManager.list_jobs
  refine filterMap_ext_mem store _ _ (fun p hp => ?_)
  unfold StateManager.load_state
  rw [storeLookup_of_mem_nodup store hnd p hp]

/-- C9. Corrupt-checkpoint degradation: `load_state` returns `None` (not a
hard failure) when the record is absent, returns `None` when it is
unparseable, and returns the parsed state when it is well-formed; and
`list_jobs` enumerates exactly the parseable persisted jobs, skipping
unparseable entries rather than aborting. -/
theorem checkpoint_load_degradation (store : Store) (jid : String) :
    (store.lookup jid = none → StateManager.load_state store jid = none) ∧
    (store.lookup jid = some Persisted.corrupt →
      StateManager.load_state store jid = none) ∧
    (∀ s, store.lookup jid = some (Persisted.good s) →
      StateManager.load_state store jid = some s) ∧
    ((store.map Prod.fst).Nodup →
      StateManager.list_jobs store
        = store.filterMap (fun p => parsePersisted p.2)) := by
  refine ⟨?_, ?_, ?_, list_jobs_eq store⟩
  · intro h; rw [StateManager.load_state, h]
  · intro h; rw [StateManager.load_state, h]; rfl
  · intro s h; rw [StateManager.load_state, h]; rfl

/-- A small store with one good and one corrupt checkpoint. -/
def demoStore : Store :=
  [("j1", Persisted.good
    { job_id := "j1", base_url := "u", started_at := "t", last_updated := "t",
      pages_scraped := 1, items_collected := 1, current_url := none,
      completed := true, urls_scraped := ["u"] }),
   ("j2", Persisted.corrupt)]

/-- Witness for C9: the corrupt checkpoint `j2` loads as "not found", and
the listing returns exactly the parseable entries of the store. -/
theorem checkpoint_load_degradation_witness :
    StateManager.load_state demoStore "j2" = none ∧
    StateManager.list_jobs demoStore
      = demoStore.filterMap (fun p => parsePersisted p.2) :=
  ⟨(checkpoint_load_degradation demoStore "j2").2.1 rfl,
   (checkpoint_load_degradation demoStore "j2").2.2.2 (by decide)⟩

/-! ## The no-double-counting invariant -/

/-- The per-snapshot invariant of a persisted state: the page counter equals
the length of the URL history, and the history holds no duplicates (so the
counter also equals the number of distinct URLs scraped). -/
def StateInv (s : ScrapeState) : Prop :=
  s.pages_scraped = s.urls_scraped.length ∧ s.urls_scraped.Nodup

/-- Every parseable record in the store satisfies the snapshot invariant. -/
def StoreInv (store : Store) : Prop :=
  ∀ p ∈ store, ∀ s, p.2 = Persisted.good s → StateInv s

/-- Overwriting one job's record with an invariant-satisfying one preserves
the store invariant. -/
theorem storePut_inv (store : Store) (jid : String) (r : Persisted)
    (h : StoreInv store) (hr : ∀ s, r = Persisted.good s → StateInv s) :
    StoreInv (StateManager.storePut store jid r) := by
  intro p hp s hs
  rcases List.mem_cons.mp hp with h1 | h2
  · rw [h1] at hs
    exact hr s hs
  · exact h p (List.mem_filter.mp h2).1 s hs

/-- `save_state` preserves both invariants (the `last_updated` rewrite does
not touch the counted fields). -/
theorem save_state_inv (store : Store) (s : ScrapeState) (now : String)
    (h : StoreInv store) (hs : StateInv s) :
    StateInv (StateManager.save_state store s now).1 ∧
    StoreInv (StateManager.save_state store s now).2 := by
  refine ⟨hs, storePut_inv store s.job_id _ h (fun s' hs' => ?_)⟩
  injection hs' with h2
  rw [← h2]
  exact hs

/-- `update_progress` on a URL not yet in the history preserves the
snapshot invariant: both the counter and the history grow by exactly one,
and the appended URL is fresh. -/
theorem update_progress_inv (store : Store) (s : ScrapeState) (url : String)
    (n : Nat) (now : String) (h : StoreInv store) (hs : StateInv s)
    (hmem : url ∉ s.urls_scraped) :
    StateInv (StateManager.update_progress store s url n now).1 ∧
    StoreInv (StateManager.update_progress store s url n now).2 := by
  refine save_state_inv store _ now h ⟨?_, ?_⟩
  · simp [hs.1]
  · simp [List.nodup_append, hs.2, hmem]

/-- `mark_completed` preserves the invariants (it only touches the terminal
flag and the cursor). -/
theorem mark_completed_inv (store : Store) (s : ScrapeState) (now : String)
    (h : StoreInv store) (hs : StateInv s) :
    StateInv (StateManager.mark_completed store s now).1 ∧
    StoreInv (StateManager.mark_completed store s now).2 :=
  save_state_inv store _ now h hs

/-- `create_job` writes a state satisfying the invariant. -/
theorem create_job_inv (store : Store) (jid base_url now : String)
    (h : StoreInv store) :
    StateInv (StateManager.create_job store jid base_url now).1 ∧
    StoreInv (StateManager.create_job store jid base_url now).2 :=
  save_state_inv store _ now h ⟨rfl, List.nodup_nil⟩

/-- A state loaded from an invariant store satisfies the invariant. -/
theorem load_state_inv (store : Store) (jid : String) (s : ScrapeState)
    (h : StoreInv store) (hl : StateManager.load_state store jid = some s) :
    StateInv s := by
  rw [StateManager.load_state] at hl
  cases hlk : store.lookup jid with
  | none => rw [hlk] at hl; cases hl
  | some r =>
    rw [hlk] at hl
    cases r with
    | corrupt => cases hl
    | good s' =>
      have hss : s' = s := by injection hl
      rw [← hss]
      exact h (jid, Persisted.good s') (storeLookup_mem store jid _ hlk) s' rfl

/-- A successful `loadResume` comes from a successful, incomplete
`load_state` under the given resume id, with resuming enabled. -/
theorem loadResume_some (en : Bool) (store : Store) (rid : Option String)
    (s : ScrapeState) (hr : Scraper.loadResume en store rid = some s) :
    ∃ jid, rid = some jid ∧ en = true ∧
      StateManager.load_state store jid = some s ∧ s.completed = false := by
  cases rid with
  | none => simp [Scraper.loadResume] at hr
  | some jid =>
    simp only [Scraper.loadResume] at hr
    by_cases hen : en = true
    · rw [if_pos hen] at hr
      cases hl : StateManager.load_state store jid with
      | none => rw [hl] at hr; dsimp only at hr; cases hr
      | some s' =>
        rw [hl] at hr
        dsimp only at hr
        by_cases hc : s'.completed = true
        · rw [if_pos hc] at hr; cases hr
        · rw [if_neg hc] at hr
          have hss : s' = s := by injection hr
          rw [hss] at hl hc
          exact ⟨jid, rfl, hen, hl, Bool.eq_false_iff.mpr hc⟩
    · rw [if_neg hen] at hr; cases hr

/-- Start-up preserves the invariants: the resumed state was loaded from an
invariant store, and a created job starts from an invariant fresh state. -/
theorem initRun_inv (hash : String → String) (cfg : RunCfg) (now : String)
    (store : Store) (rid : Option String) (h : StoreInv store) :
    StoreInv (Scraper.initRun hash cfg now store rid).store ∧
    (∀ s, (Scraper.initRun hash cfg now store rid).state = some s →
      StateInv s) := by
  rw [Scraper.initRun.eq_def]
  cases hres : Scraper.loadResume cfg.resume_enabled store rid with
  | some s =>
    refine ⟨h, fun s' hs' => ?_⟩
    have hss : s = s' := by injection hs'
    obtain ⟨jid, _, _, hl, _⟩ := loadResume_some _ store rid s hres
    rw [← hss]
    exact load_state_inv store jid s h hl
  | none =>
    by_cases hen : cfg.resume_enabled = true
    · rw [if_pos hen]
      have hc := create_job_inv store
        (generate_job_id hash cfg.base_url cfg.item_container) cfg.base_url
        now h
      refine ⟨hc.2, fun s' hs' => ?_⟩
      have hss := Option.some.inj hs'
      rw [← hss]
      exact hc.1
    · rw [if_neg hen]
      exact ⟨h, fun s' hs' => by cases hs'⟩

/-- `finalize` preserves the invariants. -/
theorem finalize_inv (r : LoopResult) (now : String) (h1 : StoreInv r.store)
    (h2 : ∀ s, r.state = some s → StateInv s) :
    StoreInv (Scraper.finalize r now).2 ∧
    (∀ s, (Scraper.finalize r now).1 = some s → StateInv s) := by
  rw [Scraper.finalize.eq_def]
  cases hst : r.state with
  | none => exact ⟨h1, fun s hs => by cases hs⟩
  | some s =>
    have hmc := mark_completed_inv r.store s now h1 (h2 s hst)
    refine ⟨hmc.2, fun s' hs' => ?_⟩
    have hss := Option.some.inj hs'
    rw [← hss]
    exact hmc.1

/-- Every persisted snapshot the loop produces — each `update_progress`
write and the loop's final store — satisfies the invariants, given that the
inputs do; the membership guard of the skip branch is what keeps
`update_progress` applied only to fresh URLs. -/
theorem runLoop_inv (fetch : String → Option Page) (now : String)
    (max_pages : Nat) :
    ∀ fuel state store cur pages data fetched writes iters,
      StoreInv store → (∀ s, state = some s → StateInv s) →
      (∀ w ∈ writes, StoreInv w) →
      StoreInv (runLoop fetch now max_pages fuel state store cur pages data
        fetched writes iters).store ∧
      (∀ s, (runLoop fetch now max_pages fuel state store cur pages data
        fetched writes iters).state = some s → StateInv s) ∧
      (∀ w ∈ (runLoop fetch now max_pages fuel state store cur pages data
        fetched writes iters).writes, StoreInv w) := by
  intro fuel
  induction fuel with
  | zero =>
    intro state store cur pages data fetched writes iters h1 h2 h3
    cases cur with
    | none => rw [runLoop_none]; exact ⟨h1, h2, h3⟩
    | some url => rw [runLoop_zero]; exact ⟨h1, h2, h3⟩
  | succ fuel ih =>
    intro state store cur pages data fetched writes iters h1 h2 h3
    cases cur with
    | none => rw [runLoop_none]; exact ⟨h1, h2, h3⟩
    | some url =>
      by_cases hp : pages < max_pages
      · cases state with
        | none =>
          rw [runLoop_nostate fetch now max_pages fuel store url pages data
            fetched writes iters hp]
          exact ih none store _ _ _ _ _ _ h1 (fun s hs => by cases hs) h3
        | some s =>
          by_cases hmem : url ∈ s.urls_scraped
          · rw [runLoop_skip fetch now max_pages fuel s store url pages data
              fetched writes iters hp hmem]
            exact ih (some s) store (some url) _ _ _ _ _ h1 h2 h3
          · rw [runLoop_scrape fetch now max_pages fuel s store url pages
              data fetched writes iters hp hmem]
            have hup := update_progress_inv store s url
              (scrape_page fetch url).1.length now h1 (h2 s rfl) hmem
            refine ih _ _ _ _ _ _ _ _ hup.2 (fun s' hs' => ?_)
              (fun w hw => ?_)
            · have hss := Option.some.inj hs'
              rw [← hss]
              exact hup.1
            · rcases List.mem_append.mp hw with hw1 | hw2
              · exact h3 w hw1
              · rw [List.mem_singleton.mp hw2]
                exact hup.2
      · rw [runLoop_budget fetch now max_pages fuel state store url pages
          data fetched writes iters hp]
        exact ⟨h1, h2, h3⟩

/-- C4. No double-counting: starting from any store whose parseable records
satisfy the snapshot invariant, every state the orchestrator persists —
every `update_progress` checkpoint written during the run, the final store,
and the final in-memory state — has `pages_scraped` equal to the number of
distinct URLs in `urls_scraped` (the history is duplicate-free, so its
length is that number); in particular a URL already in `urls_scraped` is
never re-counted nor re-appended, because the loop's membership guard routes
such URLs to the skip branch, which leaves the persisted state untouched. -/
theorem no_double_counting_invariant (hash : String → String)
    (fetch : String → Option Page) (cfg : RunCfg) (now : String)
    (store : Store) (rid : Option String) (hstore : StoreInv store) :
    StoreInv (Scraper.run hash fetch cfg now store rid).store ∧
    (∀ w ∈ (Scraper.run hash fetch cfg now store rid).writes, StoreInv w) ∧
    (∀ s, (Scraper.run hash fetch cfg now store rid).state = some s →
      StateInv s) := by
  have hinit := initRun_inv hash cfg now store rid hstore
  have hloop := runLoop_inv fetch now cfg.max_pages
    (cfg.max_pages - (Scraper.initRun hash cfg now store rid).pages_scraped)
    (Scraper.initRun hash cfg now store rid).state
    (Scraper.initRun hash cfg now store rid).store
    (Scraper.initRun hash cfg now store rid).current_url
    (Scraper.initRun hash cfg now store rid).pages_scraped
    [] [] [] 0 hinit.1 hinit.2 (fun w hw => by cases hw)
  have hfin := finalize_inv _ now hloop.1 hloop.2.1
  exact ⟨hfin.1, hloop.2.2, hfin.2⟩

/-- Witness for C4: the invariants hold of everything the two-page fixture
run persists, starting from the empty store. -/
theorem no_double_counting_invariant_witness :
    StoreInv (Scraper.run id fetchTwoPages cfgTwoPages "t" [] none).store ∧
    (∀ w ∈ (Scraper.run id fetchTwoPages cfgTwoPages "t" [] none).writes,
      StoreInv w) ∧
    (∀ s, (Scraper.run id fetchTwoPages cfgTwoPages "t" [] none).state
      = some s → StateInv s) :=
  no_double_counting_invariant id fetchTwoPages cfgTwoPages "t" [] none
    (fun p hp => absurd hp (List.not_mem_nil p))

/-! ## Budget, termination, and cycle handling -/

/-- Every loop iteration consumes one unit of fuel, so the iteration count
is bounded by the fuel (the remaining page budget). -/
theorem runLoop_iters_le (fetch : String → Option Page) (now : String)
    (max_pages : Nat) :
    ∀ fuel state store cur pages data fetched writes iters,
      (runLoop fetch now max_pages fuel state store cur pages data fetched
        writes iters).iters ≤ iters + fuel := by
  intro fuel
  induction fuel with
  | zero =>
    intro state store cur pages data fetched writes iters
    cases cur with
    | none => rw [runLoop_none]; simp
    | some url => rw [runLoop_zero]; simp
  | succ fuel ih =>
    intro state store cur pages data fetched writes iters
    cases cur with
    | none => rw [runLoop_none]; simp
    | some url =>
      by_cases hp : pages < max_pages
      · cases state with
        | none =>
          rw [runLoop_nostate fetch now max_pages fuel store url pages data
            fetched writes iters hp]
          refine le_trans (ih _ _ _ _ _ _ _ _) ?_
          omega
        | some s =>
          by_cases hmem : url ∈ s.urls_scraped
          · rw [runLoop_skip fetch now max_pages fuel s store url pages data
              fetched writes iters hp hmem]
            refine le_trans (ih _ _ _ _ _ _ _ _) ?_
            omega
          · rw [runLoop_scrape fetch now max_pages fuel s store url pages
              data fetched writes iters hp hmem]
            refine le_trans (ih _ _ _ _ _ _ _ _) ?_
            omega
      · rw [runLoop_budget fetch now max_pages fuel state store url pages
          data fetched writes iters hp]
        simp

/-- With a state present, the loop never fetches a URL twice, nor one that
is already in the state's history: each fetched URL is appended to
`urls_scraped` by its checkpoint write, and the membership guard routes any
later encounter to the skip branch. -/
theorem runLoop_nofetch (fetch : String → Option Page) (now : String)
    (max_pages : Nat) :
    ∀ fuel s store cur pages data fetched writes iters,
      (∀ u ∈ fetched, u ∈ s.urls_scraped) → fetched.Nodup →
      (runLoop fetch now max_pages fuel (some s) store cur pages data fetched
        writes iters).fetched.Nodup ∧
      (∀ u ∈ (runLoop fetch now max_pages fuel (some s) store cur pages data
        fetched writes iters).fetched, u ∈ fetched ∨ u ∉ s.urls_scraped) := by
  intro fuel
  induction fuel with
  | zero =>
    intro s store cur pages data fetched writes iters hsub hnd
    cases cur with
    | none => rw [runLoop_none]; exact ⟨hnd, fun u hu => Or.inl hu⟩
    | some url => rw [runLoop_zero]; exact ⟨hnd, fun u hu => Or.inl hu⟩
  | succ fuel ih =>
    intro s store cur pages data fetched writes iters hsub hnd
    cases cur with
    | none => rw [runLoop_none]; exact ⟨hnd, fun u hu => Or.inl hu⟩
    | some url =>
      by_cases hp : pages < max_pages
      · by_cases hmem : url ∈ s.urls_scraped
        · rw [runLoop_skip fetch now max_pages fuel s store url pages data
            fetched writes iters hp hmem]
          exact ih s store (some url) (pages + 1) data fetched writes
            (iters + 1) hsub hnd
        · rw [runLoop_scrape fetch now max_pages fuel s store url pages data
            fetched writes iters hp hmem]
          have hurlf : url ∉ fetched := fun hf => hmem (hsub url hf)
          have hsub2 : ∀ u ∈ fetched ++ [url],
              u ∈ (StateManager.update_progress store s url
                (scrape_page fetch url).1.length now).1.urls_scraped := by
            intro u hu
            show u ∈ s.urls_scraped ++ [url]
            rcases List.mem_append.mp hu with h1 | h2
            · exact List.mem_append.mpr (Or.inl (hsub u h1))
            · exact List.mem_append.mpr (Or.inr h2)
          have hnd2 : (fetched ++ [url]).Nodup := by
            simp [List.nodup_append, hnd, hurlf]
          have hres := ih
            (StateManager.update_progress store s url
              (scrape_page fetch url).1.length now).1
            (StateManager.update_progress store s url
              (scrape_page fetch url).1.length now).2
            (scrape_page fetch url).2 (pages + 1)
            (data ++ (scrape_page fetch url).1) (fetched ++ [url])
            (writes ++ [(StateManager.update_progress store s url
              (scrape_page fetch url).1.length now).2]) (iters + 1)
            hsub2 hnd2
          refine ⟨hres.1, fun u hu => ?_⟩
          rcases hres.2 u hu with h1 | h2
          · rcases List.mem_append.mp h1 with ha | hb
            · exact Or.inl ha
            · rw [List.mem_singleton.mp hb]
              exact Or.inr hmem
          · refine Or.inr (fun hu2 => h2 ?_)
            show u ∈ s.urls_scraped ++ [url]
            exact List.mem_append.mpr (Or.inl hu2)
      · rw [runLoop_budget fetch now max_pages fuel (some s) store url pages
          data fetched writes iters hp]
        exact ⟨hnd, fun u hu => Or.inl hu⟩

/-- With checkpointing enabled, the loop always starts with a state: either
the loaded one or the freshly created job. -/
theorem initRun_state_some (hash : String → String) (cfg : RunCfg)
    (now : String) (store : Store) (rid : Option String)
    (hen : cfg.resume_enabled = true) :
    ∃ s, (Scraper.initRun hash cfg now store rid).state = some s := by
  rw [Scraper.initRun.eq_def]
  cases hres : Scraper.loadResume cfg.resume_enabled store rid with
  | some s => exact ⟨s, rfl⟩
  | none =>
    dsimp only
    rw [if_pos hen]
    exact ⟨_, rfl⟩

/-- The loop invocation `Scraper.run` makes, named. -/
def Scraper.loopOf (hash : String → String) (fetch : String → Option Page)
    (cfg : RunCfg) (now : String) (store : Store)
    (rid : Option String) : LoopResult :=
  runLoop fetch now cfg.max_pages
    (cfg.max_pages - (Scraper.initRun hash cfg now store rid).pages_scraped)
    (Scraper.initRun hash cfg now store rid).state
    (Scraper.initRun hash cfg now store rid).store
    (Scraper.initRun hash cfg now store rid).current_url
    (Scraper.initRun hash cfg now store rid).pages_scraped [] [] [] 0

/-- `Scraper.run` laid out field by field over `initRun`, `loopOf` and
`finalize`. -/
theorem run_loop_eq (hash : String → String) (fetch : String → Option Page)
    (cfg : RunCfg) (now : String) (store : Store) (rid : Option String) :
    Scraper.run hash fetch cfg now store rid =
      { init_state := (Scraper.initRun hash cfg now store rid).state,
        start_url := (Scraper.initRun hash cfg now store rid).current_url,
        start_pages := (Scraper.initRun hash cfg now store rid).pages_scraped,
        state := (Scraper.finalize
          (Scraper.loopOf hash fetch cfg now store rid) now).1,
        store := (Scraper.finalize
          (Scraper.loopOf hash fetch cfg now store rid) now).2,
        pages_scraped := (Scraper.loopOf hash fetch cfg now store rid).pages_scraped,
        all_data := (Scraper.loopOf hash fetch cfg now store rid).all_data,
        fetched := (Scraper.loopOf hash fetch cfg now store rid).fetched,
        writes := (Scraper.loopOf hash fetch cfg now store rid).writes,
        iters := (Scraper.loopOf hash fetch cfg now store rid).iters,
        exported :=
          !(Scraper.loopOf hash fetch cfg now store rid).all_data.isEmpty,
        semaphore := cfg.concurrency } := rfl

/-- C5 (amended). Budget and cycles: for every configuration and content
graph the loop performs at most `max_pages` iterations (termination is by
construction: each iteration consumes one unit of the finite remaining
budget). The cycle-skip guarantee holds exactly when checkpointing is
enabled (so the loop carries a state): then no URL is ever fetched twice,
and no URL already in the starting state's history is fetched at all. With
checkpointing disabled the guard is absent and a cycle is re-fetched (see
the counterexample), still within the budget. -/
theorem budget_and_cycle_amended (hash : String → String)
    (fetch : String → Option Page) (cfg : RunCfg) (now : String)
    (store : Store) (rid : Option String) :
    (Scraper.run hash fetch cfg now store rid).iters ≤ cfg.max_pages ∧
    (cfg.resume_enabled = true →
      (Scraper.run hash fetch cfg now store rid).fetched.Nodup) ∧
    (∀ s, (Scraper.run hash fetch cfg now store rid).init_state = some s →
      ∀ u ∈ (Scraper.run hash fetch cfg now store rid).fetched,
        u ∉ s.urls_scraped) := by
  rw [run_loop_eq]
  dsimp only
  refine ⟨?_, ?_, ?_⟩
  · rw [Scraper.loopOf]
    refine le_trans (runLoop_iters_le fetch now cfg.max_pages _ _ _ _ _ _ _
      _ _) ?_
    omega
  · intro hen
    obtain ⟨s0, hs0⟩ := initRun_state_some hash cfg now store rid hen
    rw [Scraper.loopOf, hs0]
    exact (runLoop_nofetch fetch now cfg.max_pages _ s0 _ _ _ _ _ _ _
      (fun u hu => absurd hu (List.not_mem_nil u)) List.nodup_nil).1
  · intro s hs u hu
    rw [Scraper.loopOf, hs] at hu
    rcases (runLoop_nofetch fetch now cfg.max_pages _ s _ _ _ _ _ _ _
      (fun v hv => absurd hv (List.not_mem_nil v)) List.nodup_nil).2 u hu
      with h1 | h2
    · exact absurd h1 (List.not_mem_nil u)
    · exact h2

/-- Witness for C5 at the two-page fixture: at most 5 iterations, no URL
fetched twice, no initial-history URL fetched. -/
theorem budget_and_cycle_amended_witness :
    (Scraper.run id fetchTwoPages cfgTwoPages "t" [] none).iters
        ≤ cfgTwoPages.max_pages ∧
    (Scraper.run id fetchTwoPages cfgTwoPages "t" [] none).fetched.Nodup ∧
    (∀ s, (Scraper.run id fetchTwoPages cfgTwoPages "t" [] none).init_state
        = some s →
      ∀ u ∈ (Scraper.run id fetchTwoPages cfgTwoPages "t" [] none).fetched,
        u ∉ s.urls_scraped) :=
  ⟨(budget_and_cycle_amended id fetchTwoPages cfgTwoPages "t" [] none).1,
   (budget_and_cycle_amended id fetchTwoPages cfgTwoPages "t" [] none).2.1
     rfl,
   (budget_and_cycle_amended id fetchTwoPages cfgTwoPages "t" [] none).2.2⟩

/-! ## Start-up contract -/

/-- C3 (amended). Without an explicit resume identifier, the orchestrator
does compute the job id deterministically from the configuration (the hash
of `base_url ++ ":" ++ item_container`), but it performs no implicit
resume: whatever the store holds under that id — including an incomplete
state with prior progress — the run starts from a freshly created
zero-progress `CrawlState` (which `create_job` saves over any existing
record). -/
theorem implicit_resume_amended (hash : String → String)
    (fetch : String → Option Page) (cfg : RunCfg) (now : String)
    (store : Store) (hen : cfg.resume_enabled = true) :
    (Scraper.run hash fetch cfg now store none).init_state
      = some { job_id := generate_job_id hash cfg.base_url cfg.item_container,
               base_url := cfg.base_url, started_at := now,
               last_updated := now, pages_scraped := 0, items_collected := 0,
               current_url := some cfg.base_url, completed := false,
               urls_scraped := [] } := by
  rw [run_loop_eq]
  dsimp only
  have hlr : Scraper.loadResume cfg.resume_enabled store none = none := rfl
  rw [Scraper.initRun.eq_def, hlr]
  dsimp only
  rw [if_pos hen]
  rfl

/-- Witness for C3 (amended): on the two-page fixture with an existing
incomplete state for the same job id, the run still starts from the fresh
zero-progress state. -/
theorem implicit_resume_amended_witness :
    (Scraper.run id fetchTwoPages cfgTwoPages "t" storeWithProgress
        none).init_state
      = some { job_id := generate_job_id id "p1" "sel", base_url := "p1",
               started_at := "t", last_updated := "t", pages_scraped := 0,
               items_collected := 0, current_url := some "p1",
               completed := false, urls_scraped := [] } :=
  implicit_resume_amended id fetchTwoPages cfgTwoPages "t" storeWithProgress
    rfl

/-- A usable resume id makes `loadResume` return the loaded state. -/
theorem loadResume_pos (en : Bool) (store : Store) (jid : String)
    (s : ScrapeState) (hen : en = true)
    (h : StateManager.load_state store jid = some s)
    (hc : s.completed = false) :
    Scraper.loadResume en store (some jid) = some s := by
  simp only [Scraper.loadResume]
  rw [if_pos hen, h]
  dsimp only
  rw [if_neg (by rw [hc]; exact Bool.false_ne_true)]

/-- A successful `loadResume` makes start-up resume from the stored cursor
with the stored counter. -/
theorem initRun_resume (hash : String → String) (cfg : RunCfg) (now : String)
    (store : Store) (jid : String) (s : ScrapeState)
    (hlr : Scraper.loadResume cfg.resume_enabled store (some jid) = some s) :
    Scraper.initRun hash cfg now store (some jid)
      = ⟨some s, store, StateManager.get_resumable_url s,
         s.pages_scraped⟩ := by
  rw [Scraper.initRun.eq_def, hlr]

/-- C6 (amended). The resume error contract lives in the CLI, not in
`Scraper.run`, and uses process exits, not dedicated exception types (no
`JobNotFoundError` / `AlreadyCompletedError` exists in the code):
`webscraper resume` exits before constructing a scraper when the job id has
no loadable state or when the state is completed — in those cases no run
(hence no fetch) happens; on a loadable incomplete state it invokes
`Scraper.run` with the id, and the run starts from the stored `current_url`
with `pages_scraped` carried over. `Scraper.run` itself, handed a bad resume
id, does not fail: it logs an error and proceeds as a fresh job (see the
counterexample). -/
theorem resume_error_contract_amended (hash : String → String)
    (fetch : String → Option Page) (cfg : RunCfg) (now : String)
    (store : Store) (jid : String) :
    (StateManager.load_state store jid = none →
      cli_resume hash fetch cfg now store jid = CliResult.jobNotFound) ∧
    (∀ s, StateManager.load_state store jid = some s → s.completed = true →
      cli_resume hash fetch cfg now store jid
        = CliResult.alreadyCompleted) ∧
    (∀ s, StateManager.load_state store jid = some s → s.completed = false →
      cfg.resume_enabled = true →
      cli_resume hash fetch cfg now store jid
        = CliResult.ran (Scraper.run hash fetch cfg now store (some jid)) ∧
      (Scraper.run hash fetch cfg now store (some jid)).start_url
        = StateManager.get_resumable_url s ∧
      (Scraper.run hash fetch cfg now store (some jid)).start_pages
        = s.pages_scraped) := by
  refine ⟨?_, ?_, ?_⟩
  · intro h
    rw [cli_resume.eq_def, h]
  · intro s h hc
    rw [cli_resume.eq_def, h]
    dsimp only
    rw [if_pos hc]
  · intro s h hc hen
    have hlr := loadResume_pos cfg.resume_enabled store jid s hen h hc
    refine ⟨?_, ?_, ?_⟩
    · rw [cli_resume.eq_def, h]
      dsimp only
      rw [if_neg (by rw [hc]; exact Bool.false_ne_true)]
    · rw [run_loop_eq]
      dsimp only
      rw [initRun_resume hash cfg now store jid s hlr]
    · rw [run_loop_eq]
      dsimp only
      rw [initRun_resume hash cfg now store jid s hlr]

/-- Witness for C6 (amended): an unknown id gives the not-found exit; the
incomplete `priorState` gives an actual resumed run. -/
theorem resume_error_contract_amended_witness :
    cli_resume id fetchTwoPages cfgTwoPages "t" [] "nope"
      = CliResult.jobNotFound ∧
    cli_resume id fetchTwoPages cfgTwoPages "t" storeWithProgress "p1:sel"
      = CliResult.ran (Scraper.run id fetchTwoPages cfgTwoPages "t"
          storeWithProgress (some "p1:sel")) :=
  ⟨(resume_error_contract_amended id fetchTwoPages cfgTwoPages "t" []
      "nope").1 rfl,
   ((resume_error_contract_amended id fetchTwoPages cfgTwoPages "t"
      storeWithProgress "p1:sel").2.2 priorState rfl rfl rfl).1⟩

/-! ## Fetch exhaustion -/

/-- C7 (amended). When a page's fetch exhausts its retries (the wrapped
fetch yields nothing), the iteration contributes no records, the
pagination loop terminates immediately after it (`next_url` is `None`), and
the records accumulated so far are preserved for export; however the failed
page is not skipped from the bookkeeping: `update_progress` runs for it
with an item count of 0, so the failed URL is appended to `urls_scraped`
and `pages_scraped` is incremented in the persisted state. -/
theorem fetch_exhaustion_amended (fetch : String → Option Page)
    (now : String) (max_pages fuel : Nat) (s : ScrapeState) (store : Store)
    (url : String) (pages : Nat) (data fetched : List String)
    (writes : List Store) (iters : Nat) (hfail : fetch url = none)
    (hmem : url ∉ s.urls_scraped) (hp : pages < max_pages) :
    runLoop fetch now max_pages (fuel + 1) (some s) store (some url) pages
        data fetched writes iters
      = ⟨some (StateManager.update_progress store s url 0 now).1,
         (StateManager.update_progress store s url 0 now).2,
         pages + 1, data, fetched ++ [url],
         writes ++ [(StateManager.update_progress store s url 0 now).2],
         iters + 1⟩ := by
  rw [runLoop_scrape fetch now max_pages fuel s store url pages data fetched
    writes iters hp hmem]
  have hsp : scrape_page fetch url = ([], none) := by
    rw [scrape_page.eq_def, hfail]
  rw [hsp]
  dsimp only
  rw [runLoop_none]
  simp

/-- The in-memory state right after the two-page fixture's page 1. -/
def stateAfterP1 : ScrapeState :=
  { job_id := "p1:sel", base_url := "p1", started_at := "t",
    last_updated := "t", pages_scraped := 1, items_collected := 2,
    current_url := some "p1", completed := false, urls_scraped := ["p1"] }

/-- Witness for C7 (amended): with page 2's fetch failing, the loop makes
exactly one more iteration, keeps the accumulated records `a`, `b`, halts,
and persists the failed page `p2` into the state via `update_progress`. -/
theorem fetch_exhaustion_amended_witness :
    runLoop fetchBroken "t" 5 4 (some stateAfterP1) [] (some "p2") 1
        ["a", "b"] ["p1"] [] 1
      = ⟨some (StateManager.update_progress [] stateAfterP1 "p2" 0 "t").1,
         (StateManager.update_progress [] stateAfterP1 "p2" 0 "t").2,
         2, ["a", "b"], ["p1"] ++ ["p2"],
         [] ++ [(StateManager.update_progress [] stateAfterP1 "p2" 0 "t").2],
         2⟩ :=
  fetch_exhaustion_amended fetchBroken "t" 5 3 stateAfterP1 [] "p2" 1
    ["a", "b"] ["p1"] [] 1 rfl (by decide) (by decide)
